import Mathlib

/-!
Verification development for the coba benchmark execution pipeline
(`coba/benchmarks/tasks.py`): the task generator, completion filter,
grouping stages and the evaluation engine with its online learning loop.

Python values are modelled as follows: per-decision keys are `Nat`,
actions are `Int`, probabilities and rewards are `ℚ`, a context is either
absent (`None`), a tuple, or a scalar.  Object identity (used by the
pipeline for grouping and source deduplication) is modelled by tagging
each relevant object with a `Nat` identity token.  Fallible code returns
`Except String`.
-/

set_option maxHeartbeats 1600000
set_option maxRecDepth 8000

namespace Coba

/-- Per-decision identifier, `coba.simulations.Key`. -/
abbrev Key := Nat

/-- An action offered to the learner. -/
abbrev PyAction := Int

/-- A Python context value as classified by `Transactions._context_sizes`:
`None`, a tuple, or any other (scalar) value. -/
inductive PyCtx where
  | noCtx : PyCtx
  | tup (elems : List Int) : PyCtx
  | scalar (v : Int) : PyCtx
deriving DecidableEq

/-- One interaction of a simulation: a key, a context and a finite action set. -/
structure Interaction where
  key : Key
  context : PyCtx
  actions : List PyAction
deriving DecidableEq

/-- Equality of `Except` values is decidable componentwise. -/
instance instDecEqExcept {ε α : Type} [DecidableEq ε] [DecidableEq α] :
    DecidableEq (Except ε α) := fun a b =>
  match a, b with
  | .ok x, .ok y => if h : x = y then .isTrue (by simp [h]) else .isFalse (by simp [h])
  | .error x, .error y => if h : x = y then .isTrue (by simp [h]) else .isFalse (by simp [h])
  | .ok _, .error _ => .isFalse (by simp)
  | .error _, .ok _ => .isFalse (by simp)

/-- Truncation toward zero, the behaviour of Python `int()` on a rational value. -/
def pyInt (q : ℚ) : ℤ := if 0 ≤ q then ⌊q⌋ else ⌈q⌉

/-- Stable insertion of `x` after all list elements whose key is `≤ key x`. -/
def insertByKey (key : α → Nat) (x : α) : List α → List α
  | [] => [x]
  | y :: ys => if key y ≤ key x then y :: insertByKey key x ys else x :: y :: ys

/-- Stable sort by a `Nat` key, the behaviour of Python `sorted(..., key=...)`. -/
def sortByKey (key : α → Nat) (l : List α) : List α :=
  l.foldl (fun acc x => insertByKey key x acc) []

/-- Median of an already sorted list of naturals: the middle element for an odd
count, the average of the two middle elements for an even count. -/
def medianSorted (s : List Nat) : ℚ :=
  if s.length % 2 = 1 then ((s.getD (s.length / 2) 0 : Nat) : ℚ)
  else (((s.getD (s.length / 2 - 1) 0 : Nat) : ℚ) + ((s.getD (s.length / 2) 0 : Nat) : ℚ)) / 2

/-- Modelled from the Python standard library `statistics.median`: sorts the
data and takes the middle element (odd count) or the mean of the two middle
elements (even count); raises `StatisticsError` on empty data. -/
def pyMedian (l : List Nat) : Except String ℚ :=
  if l.isEmpty then .error "no median for empty data"
  else .ok (medianSorted (sortByKey (fun n => n) l))

/-- The value `int(median(xs))` computed by `Transactions._process_group`. -/
def intMedian (l : List Nat) : Except String ℤ := (pyMedian l).map pyInt

/-- Modelled from the Python standard library `statistics.mean`: the sum of the
data divided by its count; raises `StatisticsError` on empty data. -/
def pyMean (l : List ℚ) : Except String ℚ :=
  if l.isEmpty then .error "no mean for empty data" else .ok (l.sum / (l.length : ℚ))

/-- Modelled from Python `round(q, 5)` (round half to even): the nearest
integer to `q * 100000`, ties going to the even integer. -/
def roundHalfEven (q : ℚ) : ℤ :=
  if q - ⌊q⌋ < 1 / 2 then ⌊q⌋
  else if q - ⌊q⌋ > 1 / 2 then ⌊q⌋ + 1
  else if ⌊q⌋ % 2 = 0 then ⌊q⌋ else ⌊q⌋ + 1

/-- Rounding to five decimal digits, `round(x, 5)`. -/
def round5 (q : ℚ) : ℚ := ((roundHalfEven (q * 100000) : ℤ) : ℚ) / 100000

/-- The size of one context as computed by `Transactions._context_sizes`:
0 if the context is `None`, the element count for a tuple, and 1 otherwise. -/
def contextSize : PyCtx → Nat
  | .noCtx => 0
  | .tup es => es.length
  | .scalar _ => 1

/-- Modelled from the spec: a simulation either natively exposes pre-batched
interactions (`BatchedSimulation.interaction_batches`) or a flat interaction
sequence (`Simulation.interactions`). -/
inductive SimBody where
  | batched (interaction_batches : List (List Interaction)) : SimBody
  | flat (interactions : List Interaction) : SimBody

/-- Modelled from the spec: the Simulation interface consumed by the engine,
exposing interactions (pre-batched or flat) and a reward-observation function
taking (key, context, action) triples and returning positionally aligned
rewards. -/
structure PySimulation where
  body : SimBody
  reward : List (Key × PyCtx × PyAction) → List ℚ

/-- The `batchify` helper of `Transactions._process_group`: use the native
interaction batches of a `BatchedSimulation`, else one singleton batch per
interaction. -/
def batchify (s : PySimulation) : List (List Interaction) :=
  match s.body with
  | .batched bs => bs
  | .flat l => l.map (fun i => [i])

/-- A wrapped learner: `predict` returns one probability per action, and
`initOk` records whether `init()` succeeds (the adapter's `init` swallows only
`AttributeError`; any other exception propagates).  Modelled as pure data: the
generator deep-copies each learner per task, so no state is shared. -/
structure PyLearner where
  predict : Key → PyCtx → List PyAction → List ℚ
  initOk : Bool

/-- The `BenchmarkTaskLearner.choose` adapter call: computes the probabilities
via `predict`, zips them with the actions, asserts that the probabilities sum
to 1 within 0.0001 (raising an `AssertionError` otherwise), and returns one
(action, probability) pair drawn by the adapter's private weighted-random
stream.  The random draw (`CobaRandom.choice`, not present in the sources) is
modelled from the spec as an index `pick p` into the zipped pair list. -/
def BenchmarkTaskLearner.choose (pick : List ℚ → Nat) (L : PyLearner)
    (key : Key) (context : PyCtx) (actions : List PyAction) :
    Except String (PyAction × ℚ) :=
  let p := L.predict key context actions
  let c := actions.zip p
  if |p.sum - 1| < 1 / 10000 then .ok (c.getD (pick p) (0, 0))
  else .error "The learner returned invalid proabilities for action choices."

/-- One observable call of the online evaluation loop of
`Transactions._process_batch`. -/
inductive BatchEvent where
  | chooseCall (key : Key) (context : PyCtx) (actions : List PyAction) : BatchEvent
  | observeCall (triples : List (Key × PyCtx × PyAction)) : BatchEvent
  | learnCall (key : Key) (context : PyCtx) (action : PyAction)
      (reward : ℚ) (probability : ℚ) : BatchEvent
deriving DecidableEq

/-- Result of the first (choose) phase of `Transactions._process_batch`: the
four accumulated lists, the trace of calls, the final state of the learner's
random stream, and the error if some `choose` raised. -/
structure ChoosePhase (σ : Type) where
  keys : List Key
  contexts : List PyCtx
  actions : List PyAction
  probs : List ℚ
  events : List BatchEvent
  state : σ
  failed : Option String

/-- The first loop of `Transactions._process_batch`: for every interaction of
the batch, in order, call `choose` and append the key, context, chosen action
and probability to the four accumulator lists.  `choose` threads a state `σ`
(the adapter's private random stream) and may raise, which aborts the loop. -/
def chooseLoop {σ : Type}
    (choose : σ → Key → PyCtx → List PyAction → Except String (σ × PyAction × ℚ))
    (s : σ) : List Interaction → ChoosePhase σ
  | [] => ⟨[], [], [], [], [], s, none⟩
  | i :: rest =>
    match choose s i.key i.context i.actions with
    | .error e => ⟨[], [], [], [], [.chooseCall i.key i.context i.actions], s, some e⟩
    | .ok (s2, a, p) =>
      let t := chooseLoop choose s2 rest
      ⟨i.key :: t.keys, i.context :: t.contexts, a :: t.actions, p :: t.probs,
        .chooseCall i.key i.context i.actions :: t.events, t.state, t.failed⟩

/-- Python `zip` of three lists, truncating to the shortest. -/
def zip3 : List α → List β → List γ → List (α × β × γ)
  | a :: as1, b :: bs, c :: cs => (a, b, c) :: zip3 as1 bs cs
  | _, _, _ => []

/-- The second loop of `Transactions._process_batch`:
`zip(keys, contexts, actions, rewards, probs)` replayed as `learn` calls,
truncating to the shortest list as Python `zip` does. -/
def learnPhase : List Key → List PyCtx → List PyAction → List ℚ → List ℚ → List BatchEvent
  | k :: ks, c :: cs, a :: as1, r :: rs, p :: ps =>
    .learnCall k c a r p :: learnPhase ks cs as1 rs ps
  | _, _, _, _, _ => []

/-- Outcome of `Transactions._process_batch`: the trace of learner and reward
calls, the final random-stream state, and `round(mean(rewards), 5)` (or the
error raised). -/
structure BatchOutcome (σ : Type) where
  events : List BatchEvent
  state : σ
  meanReward : Except String ℚ

/-- The online evaluation loop `Transactions._process_batch`: choose an action
for every interaction of the batch, request the rewards for all collected
(key, context, action) triples in one `reward.observe` call, replay `learn`
once per zipped quintuple, and return the batch's rounded mean reward. -/
def Transactions.processBatch {σ : Type}
    (choose : σ → Key → PyCtx → List PyAction → Except String (σ × PyAction × ℚ))
    (observe : List (Key × PyCtx × PyAction) → List ℚ)
    (s : σ) (batch : List Interaction) : BatchOutcome σ :=
  let ph := chooseLoop choose s batch
  match ph.failed with
  | some e => ⟨ph.events, ph.state, .error e⟩
  | none =>
    let triples := zip3 ph.keys ph.contexts ph.actions
    let rewards := observe triples
    ⟨ph.events ++ [.observeCall triples] ++ learnPhase ph.keys ph.contexts ph.actions rewards ph.probs,
      ph.state, (pyMean rewards).map round5⟩

/-- The generator `Transactions._context_sizes`: one context size per
interaction of the batch (an empty batch yields an empty sequence). -/
def Transactions.contextSizes (interactions : List Interaction) : List Nat :=
  interactions.map (fun i => contextSize i.context)

/-- The generator `Transactions._action_counts`: yields `0` first when the
batch has zero interactions, then one action-set size per interaction. -/
def Transactions.actionCounts (interactions : List Interaction) : List Nat :=
  (if interactions.length = 0 then [0] else []) ++ interactions.map (fun i => i.actions.length)

/-- Short-circuiting effectful map, the behaviour of a Python list
comprehension over a fallible expression. -/
def mapExcept (f : α → Except String β) : List α → Except String (List β)
  | [] => .ok []
  | x :: xs =>
    match f x with
    | .error e => .error e
    | .ok y => (mapExcept f xs).map (fun ys => y :: ys)

/-- The per-(simulation, learner) Result Record.  Modelled from the spec:
`Transaction.batch` (not present in the sources) packages, per batch and
aligned to batch order, the context-size summary `C`, the action-count summary
`A`, the batch sizes `N` and the rounded mean rewards. -/
structure EvalRec where
  C : List ℤ
  A : List ℤ
  N : List Nat
  reward : List ℚ
deriving DecidableEq

/-- The adapter `choose` as used inside the engine, with the private random
stream abstracted by `pick` (state `Unit`). -/
def adapterChoose (pick : List ℚ → Nat) (L : PyLearner) :
    Unit → Key → PyCtx → List PyAction → Except String (Unit × PyAction × ℚ) :=
  fun _ k c as1 => (BenchmarkTaskLearner.choose pick L k c as1).map (fun r => ((), r.1, r.2))

/-- The per-learner body of the `try` block in `Transactions._process_group`:
`learner.init()`, then the four per-batch statistic lists (context-size
medians first, then action-count medians, batch sizes and mean rewards), each
aborting on the first raised exception. -/
def Transactions.evalLearner (pick : List ℚ → Nat) (L : PyLearner)
    (simulation : PySimulation) (batches : List (List Interaction)) :
    Except String EvalRec :=
  if L.initOk then
    match mapExcept (fun b => intMedian (Transactions.contextSizes b)) batches with
    | .error e => .error e
    | .ok cs =>
      match mapExcept (fun b => intMedian (Transactions.actionCounts b)) batches with
      | .error e => .error e
      | .ok as1 =>
        match mapExcept
            (fun b => (Transactions.processBatch (adapterChoose pick L) simulation.reward () b).meanReward)
            batches with
        | .error e => .error e
        | .ok rs => .ok ⟨cs, as1, batches.map List.length, rs⟩
  else .error "init raised"

/-- A benchmark task as constructed by `Tasks.read`.  `source` is the identity
of the underlying Source object (`simulation.source`); `wrapper` is the
identity of the per-task `BenchmarkTaskSimulation` wrapper object, which is
freshly constructed by every `BenchmarkTask.__init__`; `transform` is the
handle's filter applied to the loaded source. -/
structure BenchmarkTask where
  src_id : Nat
  sim_id : Nat
  lrn_id : Nat
  source : Nat
  wrapper : Nat
  transform : PySimulation → PySimulation
  learner : PyLearner

/-- An observable step of the evaluation engine `Transactions`. -/
inductive EngEvent where
  | loadSource (source : Nat) : EngEvent
  | skipSim (sim_id : Nat) : EngEvent
  | record (sim_id : Nat) (lrn_id : Nat) (rec : EvalRec) : EngEvent
  | failure (sim_id : Nat) (lrn_id : Nat) : EngEvent
deriving DecidableEq

/-- Outcome of the per-simulation learner loop: the emitted events, the
learners still pending when the loop ended, and whether an exception was
re-raised (`ignore_raise` disabled). -/
structure AttemptOutcome where
  events : List EngEvent
  pending : List BenchmarkTask
  raised : Bool

/-- The reverse-index learner loop of `Transactions._process_group`: the input
list is in attempt order (the reverse of collection order); each learner is
attempted once and removed from the pending lists in the `finally` block, even
when its evaluation raises.  A raised exception is logged (a `failure` event);
with `ignore_raise` the loop continues, otherwise it re-raises, leaving the
not-yet-attempted learners pending. -/
def attemptLearners (ignore_raise : Bool) (ev : BenchmarkTask → Except String EvalRec) :
    List BenchmarkTask → AttemptOutcome
  | [] => ⟨[], [], false⟩
  | t :: rest =>
    match ev t with
    | .ok r =>
      let o := attemptLearners ignore_raise ev rest
      ⟨.record t.sim_id t.lrn_id r :: o.events, o.pending, o.raised⟩
    | .error _ =>
      if ignore_raise then
        let o := attemptLearners ignore_raise ev rest
        ⟨.failure t.sim_id t.lrn_id :: o.events, o.pending, o.raised⟩
      else ⟨[.failure t.sim_id t.lrn_id], rest, true⟩

/-- Consecutive grouping by a boolean key equality, the behaviour of
`itertools.groupby`. -/
def groupRuns (eqk : α → α → Bool) : List α → List (List α)
  | [] => []
  | x :: xs =>
    match groupRuns eqk xs with
    | [] => [[x]]
    | [] :: gs => [x] :: [] :: gs
    | (y :: g) :: gs => if eqk x y then (x :: y :: g) :: gs else [x] :: (y :: g) :: gs

/-- One simulation subgroup of `Transactions._process_group`: construct the
simulation by applying the handle's transform to the loaded source, batchify
it, skip the simulation when the batch list is empty, else run the learner
loop over the tasks in reverse order. -/
def Transactions.processSim (ignore_raise : Bool) (pick : List ℚ → Nat)
    (loaded : PySimulation) : List BenchmarkTask → AttemptOutcome
  | [] => ⟨[], [], false⟩
  | t0 :: rest =>
    let simulation := t0.transform loaded
    let batches := batchify simulation
    if batches.isEmpty then ⟨[.skipSim t0.sim_id], [], false⟩
    else
      attemptLearners ignore_raise
        (fun t => Transactions.evalLearner pick t.learner simulation batches)
        ((t0 :: rest).reverse)

/-- The simulation loop inside one source group: subgroups processed in order,
stopping when an exception propagates. -/
def Transactions.runSims (ignore_raise : Bool) (pick : List ℚ → Nat)
    (loaded : PySimulation) : List (List BenchmarkTask) → List EngEvent × Bool
  | [] => ([], false)
  | g :: gs =>
    let o := Transactions.processSim ignore_raise pick loaded g
    if o.raised then (o.events, true)
    else
      let r := Transactions.runSims ignore_raise pick loaded gs
      (o.events ++ r.1, r.2)

/-- One source group of `Transactions._process_group`: load the source once
(`source.read()`), then regroup the tasks by `(sim_id, simulation)` — the
per-task wrapper object — after a stable sort by `sim_id`, and process each
simulation subgroup. -/
def Transactions.processSrcGroup (ignore_raise : Bool) (read : Nat → PySimulation)
    (pick : List ℚ → Nat) (g : List BenchmarkTask) : List EngEvent × Bool :=
  match g with
  | [] => ([], false)
  | t0 :: _ =>
    let loaded := read t0.source
    let simGroups := groupRuns (fun a b => a.sim_id == b.sim_id && a.wrapper == b.wrapper)
      (sortByKey (fun t => t.sim_id) g)
    let r := Transactions.runSims ignore_raise pick loaded simGroups
    (.loadSource t0.source :: r.1, r.2)

/-- The source loop of `Transactions._process_group`, stopping when an
exception propagates to the outer handler. -/
def Transactions.runSrcs (ignore_raise : Bool) (read : Nat → PySimulation)
    (pick : List ℚ → Nat) : List (List BenchmarkTask) → List EngEvent × Bool
  | [] => ([], false)
  | g :: gs =>
    let o := Transactions.processSrcGroup ignore_raise read pick g
    if o.2 then (o.1, true)
    else
      let r := Transactions.runSrcs ignore_raise read pick gs
      (o.1 ++ r.1, r.2)

/-- The body of `Transactions._process_group`: stable sort of all tasks by
`src_id`, consecutive regrouping by `(src_id, simulation.source)` — the shared
underlying Source object — and the source loop. -/
def Transactions.processGroup (ignore_raise : Bool) (read : Nat → PySimulation)
    (pick : List ℚ → Nat) (tasks : List BenchmarkTask) : List EngEvent :=
  let srcGroups := groupRuns (fun a b => a.src_id == b.src_id && a.source == b.source)
    (sortByKey (fun t => t.src_id) tasks)
  (Transactions.runSrcs ignore_raise read pick srcGroups).1

/-- The entry point `Transactions.filter`: chains all task groups into one
flat sequence (`chain.from_iterable`) and hands it to `_process_group` as a
single group. -/
def Transactions.filter (ignore_raise : Bool) (read : Nat → PySimulation)
    (pick : List ℚ → Nat) (task_groups : List (List BenchmarkTask)) : List EngEvent :=
  Transactions.processGroup ignore_raise read pick task_groups.flatten

/-- A caller-supplied simulation handle as consumed by `Tasks.read`: `source`
is the identity of the object `sim._source if isinstance(sim, Pipe.SourceFilters)
else sim` — the underlying Source — and `transform` is the handle's filter
(the identity filter for an unpiped source). -/
structure SimHandle where
  source : Nat
  transform : PySimulation → PySimulation

/-- The iteration order of `product(enumerate(simulations), enumerate(learners))`:
for every simulation in order, every learner in order. -/
def Tasks.pairs (sims : List SimHandle) (lrns : List PyLearner) :
    List ((Nat × SimHandle) × (Nat × PyLearner)) :=
  sims.enum.flatMap (fun se => lrns.enum.map (fun le => (se, le)))

/-- The loop body of `Tasks.read`: `source_ids` is a `defaultdict` handing each
distinct underlying Source object the next unused integer on first lookup,
modelled by the first-occurrence list `seen` (`List.indexOf` returns
`seen.length` for an absent element, which is exactly the next counter value).
`wid` numbers the `BenchmarkTaskSimulation` wrapper objects, one fresh wrapper
per constructed task.  The learner is deep-copied per task; on the pure model
the copy is the value itself. -/
def Tasks.readAux (seen : List Nat) (wid : Nat) :
    List ((Nat × SimHandle) × (Nat × PyLearner)) → List BenchmarkTask
  | [] => []
  | ((sim_id, sim), (lrn_id, lrn)) :: rest =>
    let seen2 := if sim.source ∈ seen then seen else seen ++ [sim.source]
    ⟨seen.indexOf sim.source, sim_id, lrn_id, sim.source, wid, sim.transform, lrn⟩
      :: Tasks.readAux seen2 (wid + 1) rest

/-- The task generator `Tasks.read`: one task per (simulation, learner)
cross-product pair in nested enumeration order. -/
def Tasks.read (sims : List SimHandle) (lrns : List PyLearner) : List BenchmarkTask :=
  Tasks.readAux [] 0 (Tasks.pairs sims lrns)

/-- First-occurrence list of a sequence: each value kept at its first
occurrence, later duplicates dropped.  The position of a value in this list is
the id the spec assigns to it ("the next unused non-negative integer the first
time it is encountered"). -/
def firstOccur (l : List Nat) : List Nat :=
  l.foldl (fun acc x => if x ∈ acc then acc else acc ++ [x]) []

/-- Modelled from the spec: the Prior Result Store queried by the Completion
Filter (`coba.benchmarks.results.Result`, not present in the sources) exposes
the set of already-completed `(simulation_id, learner_id)` pairs and the set of
simulation ids recorded with zero batches. -/
structure Result where
  batches : List (Nat × Nat)
  zeroBatchSims : List Nat

/-- The predicate `is_not_complete` of `Unfinished.filter`. -/
def Unfinished.is_not_complete (restored : Result) (sim_id lrn_id : Nat) : Bool :=
  !restored.batches.contains (sim_id, lrn_id) && !restored.zeroBatchSims.contains sim_id

/-- The completion filter `Unfinished.filter`: keep exactly the tasks whose
`(sim_id, lrn_id)` pair is not complete. -/
def Unfinished.filter (restored : Result) (tasks : List BenchmarkTask) : List BenchmarkTask :=
  tasks.filter (fun t => Unfinished.is_not_complete restored t.sim_id t.lrn_id)

/-- The grouping strategy `GroupBySource.filter`: stable sort by `src_id`,
then contiguous groups of equal `src_id`. -/
def GroupBySource.filter (tasks : List BenchmarkTask) : List (List BenchmarkTask) :=
  groupRuns (fun a b => a.src_id == b.src_id) (sortByKey (fun t => t.src_id) tasks)

/-- The grouping strategy `GroupByNone.filter`: one singleton group per task,
in input order. -/
def GroupByNone.filter (tasks : List BenchmarkTask) : List (List BenchmarkTask) :=
  tasks.map (fun t => [t])

/-- Extraction: the sources loaded by an engine run, in order. -/
def sourceLoads (events : List EngEvent) : List Nat :=
  events.filterMap (fun e => match e with | .loadSource s => some s | _ => none)

/-- Extraction: the `(sim_id, lrn_id)` pairs attempted by an engine run
(either recorded or failed), in order. -/
def attemptsOf (events : List EngEvent) : List (Nat × Nat) :=
  events.filterMap (fun e =>
    match e with
    | .record s l _ => some (s, l)
    | .failure s l => some (s, l)
    | _ => none)

/-- Extraction: the `(sim_id, lrn_id)` pairs that produced a Result Record,
in order. -/
def recordsOf (events : List EngEvent) : List (Nat × Nat) :=
  events.filterMap (fun e => match e with | .record s l _ => some (s, l) | _ => none)

/-- Follows the claim's words, not the source: the "integer median" of an
even-count list read as the lower of the two middle values of the sorted
list. -/
def lowerMiddleMedian (l : List Nat) : ℤ :=
  ((sortByKey (fun n => n) l).getD (l.length / 2 - 1) 0 : Nat)

/-- A generalisation of `firstOccur` starting from an already-seen list;
`firstOccur l = firstOccurFrom [] l`.  `firstOccurFrom seen l` is the state of
the `source_ids` dictionary key list after looking up every element of `l`. -/
def firstOccurFrom (seen : List Nat) (l : List Nat) : List Nat :=
  l.foldl (fun acc x => if x ∈ acc then acc else acc ++ [x]) seen

/-! Concrete instances used to evaluate the pipeline on small inputs. -/

/-- A single interaction with no context and one action. -/
def i0 : Interaction := ⟨0, .noCtx, [7]⟩

/-- The identity transform (`IdentityFilter`). -/
def idT : PySimulation → PySimulation := fun s => s

/-- A one-interaction flat simulation whose reward function returns reward 1
for every submitted triple. -/
def sim1 : PySimulation := ⟨.flat [i0], fun l => l.map (fun _ => 1)⟩

/-- A batched simulation with a nonempty batch list containing an empty
batch. -/
def simEB : PySimulation := ⟨.batched [[i0], []], fun l => l.map (fun _ => 1)⟩

/-- A source-loading environment mapping every source to `sim1`. -/
def read1 : Nat → PySimulation := fun _ => sim1

/-- A source-loading environment mapping every source to `simEB`. -/
def readEB : Nat → PySimulation := fun _ => simEB

/-- A deterministic stand-in for the adapter's weighted-random index draw. -/
def pick0 : List ℚ → Nat := fun _ => 0

/-- A well-behaved learner: probability 1 on the first action. -/
def goodL : PyLearner := ⟨fun _ _ _ => [1], true⟩

/-- The malformed learner of the spec: `predict` returns `[0.5, 0.6]`. -/
def badL : PyLearner := ⟨fun _ _ _ => [1/2, 3/5], true⟩

/-- Simulation handles over underlying source objects 5, 10, 11 and 10
again (the first and third handle wrap the identical Source object). -/
def h5 : SimHandle := ⟨5, idT⟩

def h10 : SimHandle := ⟨10, idT⟩

def h11 : SimHandle := ⟨11, idT⟩

def h10b : SimHandle := ⟨10, idT⟩

/-- The Result Record produced by evaluating `goodL` on `sim1`. -/
def rec1 : EvalRec := ⟨[0], [1], [1], [1]⟩

/-- The task list generated for one simulation and learners
`[badL, goodL, goodL]`. -/
def tasks2 : List BenchmarkTask :=
  [⟨0, 0, 0, 5, 0, idT, badL⟩, ⟨0, 0, 1, 5, 1, idT, goodL⟩, ⟨0, 0, 2, 5, 2, idT, goodL⟩]

/-- The task list generated for one simulation and two good learners. -/
def tasks3 : List BenchmarkTask :=
  [⟨0, 0, 0, 5, 0, idT, goodL⟩, ⟨0, 0, 1, 5, 1, idT, goodL⟩]

/-- The task list generated for three simulations (sources 10, 11, 10) and
one learner. -/
def tasks6 : List BenchmarkTask :=
  [⟨0, 0, 0, 10, 0, idT, goodL⟩, ⟨1, 1, 0, 11, 1, idT, goodL⟩, ⟨0, 2, 0, 10, 2, idT, goodL⟩]

/-- The task list generated for one empty-batch simulation and two learners. -/
def tasksEB : List BenchmarkTask :=
  [⟨0, 0, 0, 6, 0, idT, goodL⟩, ⟨0, 0, 1, 6, 1, idT, goodL⟩]

/-- A handle wrapping source object 6 (loaded as `simEB` by `readEB`). -/
def h6 : SimHandle := ⟨6, idT⟩

/-- A task over simulation `s` and learner `l` for the completion-filter
example. -/
def task6 (s l : Nat) : BenchmarkTask := ⟨0, s, l, 0, 0, idT, goodL⟩

/-- The Prior Result Store of the completion-filter example: pair (2, 1)
complete, simulation 3 recorded with zero batches. -/
def restored1 : Result := ⟨[(2, 1)], [3]⟩

/-- A three-interaction batch for the mean-reward examples. -/
def batch3 : List Interaction := [⟨0, .noCtx, [7]⟩, ⟨1, .noCtx, [7]⟩, ⟨2, .noCtx, [7]⟩]

/-- A trivial stateless choose used by the mean-reward examples. -/
def chooseT : Unit → Key → PyCtx → List PyAction → Except String (Unit × PyAction × ℚ) :=
  fun _ _ _ _ => .ok ((), 7, 1)

/-- A reward function returning the batch rewards `[0.2, 0.4, 0.6]`. -/
def observeA : List (Key × PyCtx × PyAction) → List ℚ := fun _ => [1/5, 2/5, 3/5]

/-- A reward function returning the batch rewards `[1/3, 1/3, 1/3]`. -/
def observeB : List (Key × PyCtx × PyAction) → List ℚ := fun _ => [1/3, 1/3, 1/3]

/-- The two-interaction batch of the context-size example: contexts
`(1, 2, 3)` and `None`. -/
def batchC9 : List Interaction := [⟨0, .tup [1, 2, 3], [7]⟩, ⟨1, .noCtx, [7]⟩]

/-- The first task generated for sources 10, 11, 10 and one learner. -/
def taskA : BenchmarkTask := ⟨0, 0, 0, 10, 0, idT, goodL⟩

/-- The third task generated for sources 10, 11, 10 and one learner: it wraps
the identical Source object as `taskA`. -/
def taskC : BenchmarkTask := ⟨0, 2, 0, 10, 2, idT, goodL⟩

end Coba

namespace Coba

/-! Helper lemmas about the task generator. -/

/-- The `(sim_id, lrn_id)` projection of the generated tasks is the id
projection of the enumerated cross-product pairs. -/
lemma readAux_map_ids (l : List ((Nat × SimHandle) × (Nat × PyLearner))) :
    ∀ (seen : List Nat) (wid : Nat),
      (Tasks.readAux seen wid l).map (fun t => (t.sim_id, t.lrn_id))
        = l.map (fun p => (p.1.1, p.2.1)) := by
  induction l with
  | nil => intro seen wid; rfl
  | cons p rest ih =>
    intro seen wid
    obtain ⟨⟨si, sim⟩, ⟨li, lrn⟩⟩ := p
    simp [Tasks.readAux, ih]

/-- The `source` projection of the generated tasks is the underlying-source
projection of the cross-product pairs. -/
lemma readAux_map_source (l : List ((Nat × SimHandle) × (Nat × PyLearner))) :
    ∀ (seen : List Nat) (wid : Nat),
      (Tasks.readAux seen wid l).map (fun t => t.source)
        = l.map (fun p => p.1.2.source) := by
  induction l with
  | nil => intro seen wid; rfl
  | cons p rest ih =>
    intro seen wid
    obtain ⟨⟨si, sim⟩, ⟨li, lrn⟩⟩ := p
    simp [Tasks.readAux, ih]

/-- The id projection of the enumerated cross product is the range product. -/
lemma pairs_map_ids (sims : List SimHandle) (lrns : List PyLearner) :
    (Tasks.pairs sims lrns).map (fun p => (p.1.1, p.2.1))
      = (List.range sims.length).product (List.range lrns.length) := by
  unfold Tasks.pairs
  rw [List.map_flatMap]
  have inner : ∀ se : Nat × SimHandle,
      (lrns.enum.map (fun le => (se, le))).map (fun p => (p.1.1, p.2.1))
        = (List.range lrns.length).map (fun j => (se.1, j)) := by
    intro se
    rw [List.map_map, ← List.enum_map_fst lrns, List.map_map]
    rfl
  calc sims.enum.flatMap (fun se => ((lrns.enum.map (fun le => (se, le))).map (fun p => (p.1.1, p.2.1))))
      = sims.enum.flatMap (fun se => (List.range lrns.length).map (fun j => (se.1, j))) := by
        simp only [inner]
    _ = (sims.enum.map Prod.fst).flatMap (fun i => (List.range lrns.length).map (fun j => (i, j))) := by
        rw [List.flatMap_map]
    _ = (List.range sims.length).product (List.range lrns.length) := by
        rw [List.enum_map_fst]
        rfl

/-- C3: For every sequence of simulations S and learners L, the Task Generator
emits exactly `|S| * |L|` tasks, whose `(simulation_id, learner_id)` pairs are
the cross product of the 0-based positions in nested (simulation, learner)
enumeration order, and every emitted pair is unique. -/
theorem c3_cross_product (sims : List SimHandle) (lrns : List PyLearner) :
    (Tasks.read sims lrns).length = sims.length * lrns.length
    ∧ (Tasks.read sims lrns).map (fun t => (t.sim_id, t.lrn_id))
        = (List.range sims.length).product (List.range lrns.length)
    ∧ ((Tasks.read sims lrns).map (fun t => (t.sim_id, t.lrn_id))).Nodup := by
  have hmap : (Tasks.read sims lrns).map (fun t => (t.sim_id, t.lrn_id))
      = (List.range sims.length).product (List.range lrns.length) := by
    rw [Tasks.read, readAux_map_ids, pairs_map_ids]
  have hsp : (List.range sims.length).product (List.range lrns.length)
      = (List.range sims.length) ×ˢ (List.range lrns.length) := rfl
  refine ⟨?_, hmap, ?_⟩
  · have := congrArg List.length hmap
    rwa [List.length_map, hsp, List.length_product, List.length_range, List.length_range] at this
  · rw [hmap, hsp]
    exact List.Nodup.product (List.nodup_range _) (List.nodup_range _)

/-! The completion filter. -/

/-- The boolean completion predicate holds exactly when the pair is not
recorded and the simulation is not recorded as zero-batch. -/
lemma is_not_complete_iff (restored : Result) (s l : Nat) :
    Unfinished.is_not_complete restored s l = true
      ↔ (s, l) ∉ restored.batches ∧ s ∉ restored.zeroBatchSims := by
  simp [Unfinished.is_not_complete]

/-- C5: The Completion Filter emits exactly the tasks whose pair has no
recorded result and whose simulation id is not recorded as zero-batch,
preserving input order; on the 6-task example with completed pair (2, 1) and
zero-batch simulation 3 exactly (1,0), (1,1), (2,0) survive. -/
theorem c5_completion_filter :
    (∀ (restored : Result) (tasks : List BenchmarkTask) (t : BenchmarkTask),
      t ∈ Unfinished.filter restored tasks
        ↔ t ∈ tasks ∧ (t.sim_id, t.lrn_id) ∉ restored.batches
            ∧ t.sim_id ∉ restored.zeroBatchSims)
    ∧ (∀ (restored : Result) (tasks : List BenchmarkTask),
        (Unfinished.filter restored tasks).Sublist tasks)
    ∧ (Unfinished.filter restored1
        [task6 1 0, task6 1 1, task6 2 0, task6 2 1, task6 3 0, task6 3 1]).map
          (fun t => (t.sim_id, t.lrn_id)) = [(1, 0), (1, 1), (2, 0)] := by
  refine ⟨?_, ?_, by decide⟩
  · intro restored tasks t
    rw [Unfinished.filter, List.mem_filter, is_not_complete_iff]
  · intro restored tasks
    exact List.filter_sublist tasks

end Coba

namespace Coba

/-! Helper lemmas about first-occurrence source-id assignment. -/

/-- Unfolding one step of `firstOccurFrom`. -/
lemma firstOccurFrom_cons (seen : List Nat) (x : Nat) (l : List Nat) :
    firstOccurFrom seen (x :: l)
      = firstOccurFrom (if x ∈ seen then seen else seen ++ [x]) l := rfl

/-- The seen list is a prefix of every later state of the dictionary keys. -/
lemma prefix_firstOccurFrom (l : List Nat) :
    ∀ seen : List Nat, seen <+: firstOccurFrom seen l := by
  induction l with
  | nil => intro seen; exact List.prefix_refl seen
  | cons x xs ih =>
    intro seen
    rw [firstOccurFrom_cons]
    refine List.IsPrefix.trans ?_ (ih _)
    by_cases hx : x ∈ seen
    · simp [hx]
    · simp only [hx, if_false]
      exact List.prefix_append seen [x]

/-- The index of an element of a prefix is its index in the whole list. -/
lemma indexOf_stable {l1 l2 : List Nat} (h : l1 <+: l2) {a : Nat} (ha : a ∈ l1) :
    l2.indexOf a = l1.indexOf a := by
  obtain ⟨t, rfl⟩ := h
  induction l1 with
  | nil => cases ha
  | cons x xs ih =>
    by_cases hx : x = a
    · simp [List.indexOf_cons, hx]
    · have hmem : a ∈ xs := by
        rcases List.mem_cons.mp ha with h1 | h1
        · exact absurd h1.symm hx
        · exact h1
      simp [List.indexOf_cons, hx, ih hmem]

/-- Appending a new element puts it at index `length`. -/
lemma indexOf_concat_self {seen : List Nat} {a : Nat} (h : a ∉ seen) :
    (seen ++ [a]).indexOf a = seen.length := by
  induction seen with
  | nil => simp [List.indexOf_cons]
  | cons x xs ih =>
    have hx : x ≠ a := fun hxa => h (hxa ▸ List.mem_cons_self x xs)
    have hxs : a ∉ xs := fun hm => h (List.mem_cons_of_mem x hm)
    simp [List.indexOf_cons, hx, ih hxs]

/-- Membership in the dictionary key list: an element was either already seen
or occurs in the looked-up sequence. -/
lemma mem_firstOccurFrom (l : List Nat) :
    ∀ (seen : List Nat) (x : Nat),
      x ∈ firstOccurFrom seen l ↔ x ∈ seen ∨ x ∈ l := by
  induction l with
  | nil => intro seen x; simp [firstOccurFrom]
  | cons y ys ih =>
    intro seen x
    rw [firstOccurFrom_cons]
    by_cases hy : y ∈ seen
    · rw [if_pos hy, ih]
      constructor
      · rintro (h | h)
        · exact Or.inl h
        · exact Or.inr (List.mem_cons_of_mem y h)
      · rintro (h | h)
        · exact Or.inl h
        · rcases List.mem_cons.mp h with rfl | h2
          · exact Or.inl hy
          · exact Or.inr h2
    · rw [if_neg hy, ih]
      constructor
      · rintro (h | h)
        · rcases List.mem_append.mp h with h2 | h2
          · exact Or.inl h2
          · exact Or.inr (List.mem_cons.mpr (Or.inl (List.mem_singleton.mp h2)))
        · exact Or.inr (List.mem_cons_of_mem y h)
      · rintro (h | h)
        · exact Or.inl (List.mem_append.mpr (Or.inl h))
        · rcases List.mem_cons.mp h with rfl | h2
          · exact Or.inl (List.mem_append.mpr (Or.inr (List.mem_singleton.mpr rfl)))
          · exact Or.inr h2

/-- The dictionary key list never holds duplicates. -/
lemma nodup_firstOccurFrom (l : List Nat) :
    ∀ seen : List Nat, seen.Nodup → (firstOccurFrom seen l).Nodup := by
  induction l with
  | nil => intro seen h; exact h
  | cons x xs ih =>
    intro seen h
    rw [firstOccurFrom_cons]
    by_cases hx : x ∈ seen
    · rw [if_pos hx]; exact ih seen h
    · rw [if_neg hx]
      refine ih _ (List.Nodup.append h (List.nodup_singleton x) ?_)
      exact List.disjoint_singleton.mpr hx

/-- Invariant of the generator loop: every produced task's `src_id` is the
index of its underlying source in the final first-occurrence list. -/
lemma readAux_src_id (l : List ((Nat × SimHandle) × (Nat × PyLearner))) :
    ∀ (seen : List Nat) (wid : Nat) (t : BenchmarkTask),
      t ∈ Tasks.readAux seen wid l →
        t.src_id = (firstOccurFrom seen (l.map (fun p => p.1.2.source))).indexOf t.source
        ∧ t.source ∈ firstOccurFrom seen (l.map (fun p => p.1.2.source)) := by
  induction l with
  | nil => intro seen wid t ht; cases ht
  | cons p rest ih =>
    obtain ⟨⟨si, sim⟩, ⟨li, lrn⟩⟩ := p
    intro seen wid t ht
    rw [List.map_cons, firstOccurFrom_cons]
    rcases List.mem_cons.mp ht with rfl | htail
    · constructor
      · by_cases hs : sim.source ∈ seen
        · rw [if_pos hs]
          exact (indexOf_stable (prefix_firstOccurFrom _ _) hs).symm
        · rw [if_neg hs]
          have h1 : (seen ++ [sim.source]).indexOf sim.source = seen.length :=
            indexOf_concat_self hs
          have h2 : sim.source ∈ seen ++ [sim.source] :=
            List.mem_append.mpr (Or.inr (List.mem_singleton.mpr rfl))
          rw [indexOf_stable (prefix_firstOccurFrom _ _) h2, h1]
          exact List.indexOf_eq_length.mpr hs
      · rw [mem_firstOccurFrom]
        by_cases hs : sim.source ∈ seen
        · rw [if_pos hs]; exact Or.inl hs
        · rw [if_neg hs]
          exact Or.inl (List.mem_append.mpr (Or.inr (List.mem_singleton.mpr rfl)))
    · exact ih _ _ t htail

/-- C4: Within one reading of the Task Generator, source ids are the indices
into the first-occurrence list of distinct underlying Source objects of the
cross product; tasks wrapping the identical Source object share the id, tasks
wrapping distinct Source objects have distinct ids, and the ids emitted are
exactly `0, 1, 2, ...` up to the number of distinct Sources. -/
theorem c4_source_ids (sims : List SimHandle) (lrns : List PyLearner) :
    (∀ t ∈ Tasks.read sims lrns,
        t.src_id
          = (firstOccur ((Tasks.pairs sims lrns).map (fun p => p.1.2.source))).indexOf t.source
        ∧ t.source ∈ firstOccur ((Tasks.pairs sims lrns).map (fun p => p.1.2.source)))
    ∧ (∀ t ∈ Tasks.read sims lrns, ∀ t' ∈ Tasks.read sims lrns,
        (t.source = t'.source ↔ t.src_id = t'.src_id))
    ∧ (∀ j : Nat,
        j ∈ (Tasks.read sims lrns).map (fun t => t.src_id)
          ↔ j < (firstOccur ((Tasks.pairs sims lrns).map (fun p => p.1.2.source))).length) := by
  have hFO : firstOccur ((Tasks.pairs sims lrns).map (fun p => p.1.2.source))
      = firstOccurFrom [] ((Tasks.pairs sims lrns).map (fun p => p.1.2.source)) := rfl
  have hinv := readAux_src_id (Tasks.pairs sims lrns) [] 0
  have hnd : (firstOccurFrom [] ((Tasks.pairs sims lrns).map (fun p => p.1.2.source))).Nodup :=
    nodup_firstOccurFrom _ [] List.nodup_nil
  refine ⟨?_, ?_, ?_⟩
  · intro t ht
    rw [hFO]
    exact hinv t ht
  · intro t ht t' ht'
    obtain ⟨he, hm⟩ := hinv t ht
    obtain ⟨he', hm'⟩ := hinv t' ht'
    rw [hFO] at *
    rw [he, he']
    exact (List.indexOf_inj hm hm').symm
  · intro j
    rw [hFO]
    constructor
    · intro hj
      obtain ⟨t, ht, rfl⟩ := List.mem_map.mp hj
      obtain ⟨he, hm⟩ := hinv t ht
      rw [he]
      exact List.indexOf_lt_length.mpr hm
    · intro hj
      set F := firstOccurFrom [] ((Tasks.pairs sims lrns).map (fun p => p.1.2.source)) with hF
      have hmem : F[j] ∈ F := List.getElem_mem hj
      have hsrc : F[j] ∈ (Tasks.pairs sims lrns).map (fun p => p.1.2.source) := by
        rcases (mem_firstOccurFrom _ [] _).mp hmem with h | h
        · cases h
        · exact h
      have hsrc2 : F[j] ∈ (Tasks.read sims lrns).map (fun t => t.source) := by
        rw [Tasks.read, readAux_map_source]
        exact hsrc
      obtain ⟨t, ht, hts⟩ := List.mem_map.mp hsrc2
      obtain ⟨he, _⟩ := hinv t ht
      refine List.mem_map.mpr ⟨t, ht, ?_⟩
      rw [he, hts, List.indexOf_getElem hnd j hj]
  
end Coba

namespace Coba

/-- C4 witness: the first and third generated task of the run over sources
10, 11, 10 wrap the identical Source object and receive the identical
source id. -/
theorem c4_source_ids_witness :
    taskA ∈ Tasks.read [h10, h11, h10b] [goodL]
    ∧ taskC ∈ Tasks.read [h10, h11, h10b] [goodL]
    ∧ (taskA.source = taskC.source ↔ taskA.src_id = taskC.src_id) := by
  have hA : taskA ∈ Tasks.read [h10, h11, h10b] [goodL] := List.mem_cons_self _ _
  have hC : taskC ∈ Tasks.read [h10, h11, h10b] [goodL] :=
    List.mem_cons_of_mem _ (List.mem_cons_of_mem _ (List.mem_cons_self _ _))
  exact ⟨hA, hC, (c4_source_ids [h10, h11, h10b] [goodL]).2.1 taskA hA taskC hC⟩

/-! Helper lemmas about the online evaluation loop. -/

/-- When no `choose` call raises, the first phase collects the batch's keys
and contexts in order, emits exactly one `chooseCall` per interaction in batch
order, and collects one action and one probability per interaction. -/
lemma chooseLoop_ok (batch : List Interaction) :
    ∀ {σ : Type} (choose : σ → Key → PyCtx → List PyAction → Except String (σ × PyAction × ℚ))
      (s : σ), (chooseLoop choose s batch).failed = none →
      (chooseLoop choose s batch).keys = batch.map Interaction.key
      ∧ (chooseLoop choose s batch).contexts = batch.map Interaction.context
      ∧ (chooseLoop choose s batch).events
          = batch.map (fun i => BatchEvent.chooseCall i.key i.context i.actions)
      ∧ (chooseLoop choose s batch).actions.length = batch.length
      ∧ (chooseLoop choose s batch).probs.length = batch.length := by
  induction batch with
  | nil => intro σ choose s _; exact ⟨rfl, rfl, rfl, rfl, rfl⟩
  | cons i rest ih =>
    intro σ choose s hf
    rcases h : choose s i.key i.context i.actions with e | ⟨s2, a, p⟩
    · rw [chooseLoop, h] at hf
      cases hf
    · rw [chooseLoop, h] at hf ⊢
      obtain ⟨h1, h2, h3, h4, h5⟩ := ih choose s2 hf
      simp [h1, h2, h3, h4, h5]

/-- The length of a three-way zip of equal-length lists. -/
lemma zip3_length_eq {n : Nat} :
    ∀ {α β γ : Type} (as1 : List α) (bs : List β) (cs : List γ),
      as1.length = n → bs.length = n → cs.length = n → (zip3 as1 bs cs).length = n := by
  induction n with
  | zero =>
    intro α β γ as1 bs cs ha hb hc
    rw [List.length_eq_zero] at ha
    subst ha; rfl
  | succ m ih =>
    intro α β γ as1 bs cs ha hb hc
    cases as1 with
    | nil => cases ha
    | cons a as2 =>
      cases bs with
      | nil => cases hb
      | cons b bs2 =>
        cases cs with
        | nil => cases hc
        | cons c cs2 =>
          simp only [zip3, List.length_cons] at *
          exact congrArg Nat.succ (ih as2 bs2 cs2 (Nat.succ_injective ha)
            (Nat.succ_injective hb) (Nat.succ_injective hc))

/-- The `learn` replay loop is the map of `learnCall` over the zip of its five
lists: feedback is positionally aligned, truncating like Python `zip`. -/
lemma learnPhase_eq_zip :
    ∀ (ks : List Key) (cs : List PyCtx) (as1 : List PyAction) (rs ps : List ℚ),
      learnPhase ks cs as1 rs ps
        = ((ks.zip cs).zip (as1.zip (rs.zip ps))).map
            (fun q => BatchEvent.learnCall q.1.1 q.1.2 q.2.1 q.2.2.1 q.2.2.2) := by
  intro ks
  induction ks with
  | nil => intro cs as1 rs ps; rfl
  | cons k ks2 ih =>
    intro cs as1 rs ps
    cases cs with
    | nil => rfl
    | cons c cs2 =>
      cases as1 with
      | nil => rfl
      | cons a as2 =>
        cases rs with
        | nil => rfl
        | cons r rs2 =>
          cases ps with
          | nil => rfl
          | cons p ps2 => simp [learnPhase, ih]

/-- C1: For every batch of N interactions processed by the online evaluation
loop (no `choose` raising, rewards positionally aligned), `choose` is called
exactly once per interaction in batch order before any `learn` call; the
rewards are then requested in a single `observe` call carrying the N
(key, context, action) triples in choice order; afterwards `learn` is called
exactly N times, in the same order, each with its positionally aligned reward
and the probability returned by its `choose`. -/
theorem c1_online_loop_shape {σ : Type}
    (choose : σ → Key → PyCtx → List PyAction → Except String (σ × PyAction × ℚ))
    (observe : List (Key × PyCtx × PyAction) → List ℚ)
    (s : σ) (batch : List Interaction) (ph : ChoosePhase σ)
    (hph : ph = chooseLoop choose s batch)
    (h1 : ph.failed = none)
    (h2 : (observe (zip3 ph.keys ph.contexts ph.actions)).length = batch.length) :
    (Transactions.processBatch choose observe s batch).events
      = batch.map (fun i => BatchEvent.chooseCall i.key i.context i.actions)
        ++ [BatchEvent.observeCall
              (zip3 (batch.map Interaction.key) (batch.map Interaction.context) ph.actions)]
        ++ (((batch.map Interaction.key).zip (batch.map Interaction.context)).zip
              (ph.actions.zip ((observe (zip3 ph.keys ph.contexts ph.actions)).zip ph.probs))).map
            (fun q => BatchEvent.learnCall q.1.1 q.1.2 q.2.1 q.2.2.1 q.2.2.2)
    ∧ (zip3 ph.keys ph.contexts ph.actions).length = batch.length
    ∧ (((batch.map Interaction.key).zip (batch.map Interaction.context)).zip
          (ph.actions.zip ((observe (zip3 ph.keys ph.contexts ph.actions)).zip ph.probs))).length
        = batch.length := by
  subst hph
  obtain ⟨hk, hc, he, ha, hp⟩ := chooseLoop_ok batch choose s h1
  have hkl : (chooseLoop choose s batch).keys.length = batch.length := by
    rw [hk, List.length_map]
  have hcl : (chooseLoop choose s batch).contexts.length = batch.length := by
    rw [hc, List.length_map]
  have hzl : (zip3 (chooseLoop choose s batch).keys (chooseLoop choose s batch).contexts
      (chooseLoop choose s batch).actions).length = batch.length :=
    zip3_length_eq _ _ _ hkl hcl ha
  refine ⟨?_, hzl, ?_⟩
  · simp only [Transactions.processBatch, h1]
    rw [learnPhase_eq_zip, he, hk, hc]
  · simp only [List.length_map, List.length_zip, hkl, hcl, ha, hp, h2, List.length_map]
    simp

end Coba

namespace Coba

/-- C1 witness: the online loop shape instantiated on a concrete three
interaction batch with rewards `[0.2, 0.4, 0.6]`. -/
theorem c1_online_loop_shape_witness :
    (chooseLoop chooseT () batch3).failed = none
    ∧ (observeA (zip3 (chooseLoop chooseT () batch3).keys (chooseLoop chooseT () batch3).contexts
        (chooseLoop chooseT () batch3).actions)).length = batch3.length
    ∧ ((Transactions.processBatch chooseT observeA () batch3).events
        = batch3.map (fun i => BatchEvent.chooseCall i.key i.context i.actions)
          ++ [BatchEvent.observeCall
                (zip3 (batch3.map Interaction.key) (batch3.map Interaction.context)
                  (chooseLoop chooseT () batch3).actions)]
          ++ (((batch3.map Interaction.key).zip (batch3.map Interaction.context)).zip
                ((chooseLoop chooseT () batch3).actions.zip
                  ((observeA (zip3 (chooseLoop chooseT () batch3).keys
                      (chooseLoop chooseT () batch3).contexts
                      (chooseLoop chooseT () batch3).actions)).zip
                    (chooseLoop chooseT () batch3).probs))).map
              (fun q => BatchEvent.learnCall q.1.1 q.1.2 q.2.1 q.2.2.1 q.2.2.2)
      ∧ (zip3 (chooseLoop chooseT () batch3).keys (chooseLoop chooseT () batch3).contexts
          (chooseLoop chooseT () batch3).actions).length = batch3.length
      ∧ (((batch3.map Interaction.key).zip (batch3.map Interaction.context)).zip
            ((chooseLoop chooseT () batch3).actions.zip
              ((observeA (zip3 (chooseLoop chooseT () batch3).keys
                  (chooseLoop chooseT () batch3).contexts
                  (chooseLoop chooseT () batch3).actions)).zip
                (chooseLoop chooseT () batch3).probs))).length = batch3.length) :=
  ⟨rfl, rfl,
    c1_online_loop_shape chooseT observeA () batch3 (chooseLoop chooseT () batch3) rfl rfl rfl⟩

/-- C8: The recorded mean reward of a batch is the arithmetic mean of the
rewards returned by the simulation's reward function, rounded to five decimal
digits; rewards `[0.2, 0.4, 0.6]` record `0.4` and rewards
`[1/3, 1/3, 1/3]` record `0.33333`. -/
theorem c8_mean_reward :
    (∀ (σ : Type) (choose : σ → Key → PyCtx → List PyAction → Except String (σ × PyAction × ℚ))
      (observe : List (Key × PyCtx × PyAction) → List ℚ) (s : σ)
      (batch : List Interaction) (ph : ChoosePhase σ),
      ph = chooseLoop choose s batch →
      ph.failed = none →
      observe (zip3 ph.keys ph.contexts ph.actions) ≠ [] →
      (Transactions.processBatch choose observe s batch).meanReward
        = .ok (round5 ((observe (zip3 ph.keys ph.contexts ph.actions)).sum
            / ((observe (zip3 ph.keys ph.contexts ph.actions)).length : ℚ))))
    ∧ (Transactions.processBatch chooseT observeA () batch3).meanReward = .ok (2/5)
    ∧ (Transactions.processBatch chooseT observeB () batch3).meanReward = .ok (33333/100000) := by
  refine ⟨?_, ?_, ?_⟩
  · intro σ choose observe s batch ph hph h1 h2
    subst hph
    simp only [Transactions.processBatch, h1, pyMean]
    rw [if_neg (by simpa [List.isEmpty_iff] using h2)]
    rfl
  · norm_num [Transactions.processBatch, chooseLoop, chooseT, observeA, zip3, pyMean,
      batch3, round5, roundHalfEven, Int.fract, Except.map]
  · norm_num [Transactions.processBatch, chooseLoop, chooseT, observeB, zip3, pyMean,
      batch3, round5, roundHalfEven, Int.fract, Except.map]

/-- C8 witness: the general mean-reward equation instantiated on the concrete
batch with rewards `[0.2, 0.4, 0.6]`. -/
theorem c8_mean_reward_witness :
    (chooseLoop chooseT () batch3).failed = none
    ∧ observeA (zip3 (chooseLoop chooseT () batch3).keys (chooseLoop chooseT () batch3).contexts
        (chooseLoop chooseT () batch3).actions) ≠ []
    ∧ (Transactions.processBatch chooseT observeA () batch3).meanReward
        = .ok (round5 ((observeA (zip3 (chooseLoop chooseT () batch3).keys
            (chooseLoop chooseT () batch3).contexts (chooseLoop chooseT () batch3).actions)).sum
            / ((observeA (zip3 (chooseLoop chooseT () batch3).keys
              (chooseLoop chooseT () batch3).contexts
              (chooseLoop chooseT () batch3).actions)).length : ℚ))) :=
  ⟨rfl, by simp [observeA],
    c8_mean_reward.1 Unit chooseT observeA () batch3 (chooseLoop chooseT () batch3) rfl rfl
      (by simp [observeA])⟩

end Coba

namespace Coba

/-- Inserting one element grows the length by one. -/
lemma insertByKey_length {α : Type} (key : α → Nat) (x : α) :
    ∀ l : List α, (insertByKey key x l).length = l.length + 1 := by
  intro l
  induction l with
  | nil => rfl
  | cons y ys ih =>
    by_cases h : key y ≤ key x
    · simp [insertByKey, h, ih]
    · simp [insertByKey, h]

/-- Stable sorting preserves the length. -/
lemma sortByKey_length {α : Type} (key : α → Nat) (l : List α) :
    (sortByKey key l).length = l.length := by
  have haux : ∀ (l2 : List α) (acc : List α),
      (l2.foldl (fun acc x => insertByKey key x acc) acc).length = acc.length + l2.length := by
    intro l2
    induction l2 with
    | nil => intro acc; simp
    | cons x xs ih =>
      intro acc
      rw [List.foldl_cons, ih, insertByKey_length]
      simp only [List.length_cons]
      omega
  rw [sortByKey, haux]
  simp

/-- Shared evaluation: the batch with contexts `(1,2,3)` and `None` has
context sizes `[3, 0]` and recorded integer median 1. -/
lemma intMedian_ctxC9 : intMedian (Transactions.contextSizes batchC9) = .ok 1 := by
  norm_num [intMedian, pyMedian, sortByKey, insertByKey, medianSorted, pyInt, Except.map,
    Transactions.contextSizes, contextSize, batchC9]

/-- C9 counterexample: for the batch of two interactions with contexts
`(1, 2, 3)` and `None` (sizes `[3, 0]`) the code records context size 1 —
`int(median([3, 0])) = int(1.5) = 1` — which is not the lower of the two
middle values (0), so the claim's even-count rule contradicts its own
example. -/
theorem c9_cex_lower_middle :
    Transactions.contextSizes batchC9 = [3, 0]
    ∧ intMedian (Transactions.contextSizes batchC9) = .ok 1
    ∧ lowerMiddleMedian (Transactions.contextSizes batchC9) = 0
    ∧ intMedian (Transactions.contextSizes batchC9)
        ≠ .ok (lowerMiddleMedian (Transactions.contextSizes batchC9)) := by
  refine ⟨by decide, intMedian_ctxC9, by decide, ?_⟩
  rw [intMedian_ctxC9, show lowerMiddleMedian (Transactions.contextSizes batchC9) = 0 from by decide]
  decide

/-- C9 (amended): the recorded context size is `int(median(sizes))`; for an
even interaction count this is the truncation of the average of the two middle
values of the sorted sizes (their floored mean, the sizes being naturals), so
the batch with contexts `(1,2,3)` and `None` records context size 1. -/
theorem c9_truncated_mean_median :
    (∀ (l : List Nat) (m : Nat), l.length = 2 * (m + 1) →
      intMedian l = .ok
        ((((sortByKey (fun n => n) l).getD m 0 + (sortByKey (fun n => n) l).getD (m + 1) 0) / 2
          : Nat)))
    ∧ intMedian (Transactions.contextSizes batchC9) = .ok 1 := by
  refine ⟨?_, intMedian_ctxC9⟩
  intro l m hl
  have hne : ¬ l.isEmpty = true := by
    cases l with
    | nil => cases hl
    | cons x xs => simp
  have hsl : (sortByKey (fun n => n) l).length = l.length := sortByKey_length _ l
  have hdiv : 2 * (m + 1) / 2 = m + 1 := Nat.mul_div_cancel_left _ (by norm_num)
  have hmods : 2 * (m + 1) % 2 = 0 := Nat.mul_mod_right 2 (m + 1)
  have hidx1 : (sortByKey (fun n => n) l).length / 2 - 1 = m := by
    rw [hsl, hl, hdiv]; omega
  have hidx2 : (sortByKey (fun n => n) l).length / 2 = m + 1 := by rw [hsl, hl, hdiv]
  rw [intMedian, pyMedian, if_neg hne, medianSorted,
    if_neg (by rw [hsl, hl, hmods]; norm_num), hidx1, hidx2]
  set a := (sortByKey (fun n => n) l).getD m 0 with ha
  set b := (sortByKey (fun n => n) l).getD (m + 1) 0 with hb
  have hcast : ((a : ℚ) + (b : ℚ)) / 2 = ((a + b : ℕ) : ℚ) / ((2 : ℕ) : ℚ) := by
    push_cast; ring
  have hfloor : ⌊((a : ℚ) + (b : ℚ)) / 2⌋ = ((a + b) / 2 : ℕ) := by
    rw [hcast, Rat.floor_natCast_div_natCast, ← Int.ofNat_ediv]
  have hpos : 0 ≤ ((a : ℚ) + (b : ℚ)) / 2 := by positivity
  simp only [Except.map, pyInt, if_pos hpos, hfloor]

/-- C9 amended witness: the even-count rule instantiated on the size list
`[3, 0]`. -/
theorem c9_truncated_mean_median_witness :
    ([3, 0] : List Nat).length = 2 * (0 + 1)
    ∧ intMedian [3, 0] = .ok
        ((((sortByKey (fun n => n) [3, 0]).getD 0 0 + (sortByKey (fun n => n) [3, 0]).getD (0 + 1) 0) / 2
          : Nat)) :=
  ⟨rfl, c9_truncated_mean_median.1 [3, 0] 0 rfl⟩

end Coba

namespace Coba

/-! Evaluation lemmas for the concrete engine scenarios. -/

/-- The identity transform evaluates to its argument. -/
lemma idT_eval : ∀ s, idT s = s := fun _ => rfl

/-- Every source of the flat environment loads as `sim1`. -/
lemma read1_eval : ∀ n, read1 n = sim1 := fun _ => rfl

/-- Every source of the empty-batch environment loads as `simEB`. -/
lemma readEB_eval : ∀ n, readEB n = simEB := fun _ => rfl

/-- `sim1` batchifies into one singleton batch. -/
lemma batchify_sim1 : batchify sim1 = [[i0]] := rfl

/-- `simEB` batchifies into its native batches, one of which is empty. -/
lemma batchify_simEB : batchify simEB = [[i0], []] := rfl

/-- Evaluating the well-behaved learner on `sim1` produces `rec1`. -/
lemma evalGood : Transactions.evalLearner pick0 goodL sim1 [[i0]] = .ok rec1 := by
  norm_num [Transactions.evalLearner, mapExcept, intMedian, pyMedian, sortByKey, insertByKey,
    medianSorted, pyInt, Except.map, Transactions.contextSizes, Transactions.actionCounts,
    contextSize, Transactions.processBatch, chooseLoop, adapterChoose, BenchmarkTaskLearner.choose,
    zip3, learnPhase, pyMean, round5, roundHalfEven, Int.fract, goodL, sim1, pick0, i0, rec1]

/-- Evaluating the malformed learner on `sim1` raises the `choose` assertion. -/
lemma evalBad : Transactions.evalLearner pick0 badL sim1 [[i0]]
    = .error "The learner returned invalid proabilities for action choices." := by
  norm_num [Transactions.evalLearner, mapExcept, intMedian, pyMedian, sortByKey, insertByKey,
    medianSorted, pyInt, Except.map, Transactions.contextSizes, Transactions.actionCounts,
    contextSize, Transactions.processBatch, chooseLoop, adapterChoose, BenchmarkTaskLearner.choose,
    zip3, learnPhase, pyMean, round5, roundHalfEven, Int.fract, abs, badL, sim1, pick0, i0]

/-- Evaluating any-good learner on the empty-batch simulation raises inside
the context-size median. -/
lemma evalGoodEB : Transactions.evalLearner pick0 goodL simEB [[i0], []]
    = .error "no median for empty data" := by
  norm_num [Transactions.evalLearner, mapExcept, intMedian, pyMedian, sortByKey, insertByKey,
    medianSorted, pyInt, Except.map, Transactions.contextSizes, contextSize, goodL, i0]

/-- Under failure suppression the learner loop attempts every pending learner
exactly once, in order, emits one record or one failure per learner, never
re-raises, and ends with nothing pending. -/
lemma attemptLearners_suppress (ev : BenchmarkTask → Except String EvalRec) :
    ∀ g : List BenchmarkTask,
      attemptLearners true ev g
        = ⟨g.map (fun t => match ev t with
            | .ok r => EngEvent.record t.sim_id t.lrn_id r
            | .error _ => EngEvent.failure t.sim_id t.lrn_id), [], false⟩ := by
  intro g
  induction g with
  | nil => rfl
  | cons t rest ih =>
    rcases h : ev t with e | r
    · simp [attemptLearners, h, ih]
    · simp [attemptLearners, h, ih]

/-- The generator output for one simulation and learners `[badL, goodL, goodL]`. -/
lemma tasks2_def : Tasks.read [h5] [badL, goodL, goodL] = tasks2 := rfl

/-- The generator output for one simulation and two good learners. -/
lemma tasks3_def : Tasks.read [h5] [goodL, goodL] = tasks3 := rfl

/-- The generator output for sources 10, 11, 10 and one learner. -/
lemma tasks6_def : Tasks.read [h10, h11, h10b] [goodL] = tasks6 := rfl

/-- The generator output for the empty-batch source and two learners. -/
lemma tasksEB_def : Tasks.read [h6] [goodL, goodL] = tasksEB := rfl

/-- Engine trace of the failure-isolation scenario: the malformed learner is
collected first, fails, and both subsequent learners still produce records. -/
lemma engineRun2 : Transactions.filter true read1 pick0 [tasks2]
    = [.loadSource 5, .failure 0 0, .record 0 1 rec1, .record 0 2 rec1] := by
  simp [Transactions.filter, Transactions.processGroup, Transactions.runSrcs,
    Transactions.processSrcGroup, Transactions.runSims, Transactions.processSim,
    attemptLearners, groupRuns, sortByKey, insertByKey, tasks2, read1_eval, idT_eval,
    batchify_sim1, evalGood, evalBad]

/-- Engine trace of the two-learner scenario: both learners succeed and are
attempted in collection order. -/
lemma engineRun3 : Transactions.filter true read1 pick0 [tasks3]
    = [.loadSource 5, .record 0 0 rec1, .record 0 1 rec1] := by
  simp [Transactions.filter, Transactions.processGroup, Transactions.runSrcs,
    Transactions.processSrcGroup, Transactions.runSims, Transactions.processSim,
    attemptLearners, groupRuns, sortByKey, insertByKey, tasks3, read1_eval, idT_eval,
    batchify_sim1, evalGood]

/-- Engine trace of the three-singleton-group scenario over sources 10, 11,
10: the flattened tasks are stably sorted by source id, the first and third
group merge into one source load, and simulation 2 is processed before
simulation 1. -/
lemma engineRun6 : Transactions.filter true read1 pick0 (GroupByNone.filter tasks6)
    = [.loadSource 10, .record 0 0 rec1, .record 2 0 rec1, .loadSource 11, .record 1 0 rec1] := by
  simp [Transactions.filter, GroupByNone.filter, Transactions.processGroup, Transactions.runSrcs,
    Transactions.processSrcGroup, Transactions.runSims, Transactions.processSim,
    attemptLearners, groupRuns, sortByKey, insertByKey, tasks6, read1_eval, idT_eval,
    batchify_sim1, evalGood]

/-- Engine trace of the empty-batch scenario: both learners fail and nothing
is recorded. -/
lemma engineRunEB : Transactions.filter true readEB pick0 [tasksEB]
    = [.loadSource 6, .failure 0 0, .failure 0 1] := by
  simp [Transactions.filter, Transactions.processGroup, Transactions.runSrcs,
    Transactions.processSrcGroup, Transactions.runSims, Transactions.processSim,
    attemptLearners, groupRuns, sortByKey, insertByKey, tasksEB, readEB_eval, idT_eval,
    batchify_simEB, evalGoodEB]

/-- C2: With failure suppression enabled, an exception in one learner's init
or batch loop — in particular the `choose` assertion raised when `predict`
returns `[0.5, 0.6]` — loses only that learner's Result Record: every learner
is still attempted exactly once (one record or one failure each, in order),
and in the concrete run the two learners queued after the malformed one still
produce their records. -/
theorem c2_failure_isolation :
    (∀ (ev : BenchmarkTask → Except String EvalRec) (g : List BenchmarkTask),
      attemptLearners true ev g
        = ⟨g.map (fun t => match ev t with
            | .ok r => EngEvent.record t.sim_id t.lrn_id r
            | .error _ => EngEvent.failure t.sim_id t.lrn_id), [], false⟩)
    ∧ BenchmarkTaskLearner.choose pick0 badL 0 PyCtx.noCtx [7, 8]
        = .error "The learner returned invalid proabilities for action choices."
    ∧ Tasks.read [h5] [badL, goodL, goodL] = tasks2
    ∧ Transactions.filter true read1 pick0 [tasks2]
        = [.loadSource 5, .failure 0 0, .record 0 1 rec1, .record 0 2 rec1]
    ∧ recordsOf (Transactions.filter true read1 pick0 [tasks2]) = [(0, 1), (0, 2)] := by
  refine ⟨attemptLearners_suppress, ?_, tasks2_def, engineRun2, ?_⟩
  · norm_num [BenchmarkTaskLearner.choose, abs, badL]
  · rw [engineRun2]
    rfl

/-- C6 counterexample: with three singleton task groups over sources 10, 11,
10, the engine flattens the groups and stably re-sorts by source id: the third
group's task is evaluated (its record emitted) before the second group's
source is even loaded, and the first and third group share one source load —
so groups are neither kept separate nor processed in the order given. -/
theorem c6_cex_group_order :
    Transactions.filter true read1 pick0 (GroupByNone.filter (Tasks.read [h10, h11, h10b] [goodL]))
      = [.loadSource 10, .record 0 0 rec1, .record 2 0 rec1, .loadSource 11, .record 1 0 rec1]
    ∧ recordsOf (Transactions.filter true read1 pick0
        (GroupByNone.filter (Tasks.read [h10, h11, h10b] [goodL]))) = [(0, 0), (2, 0), (1, 0)]
    ∧ sourceLoads (Transactions.filter true read1 pick0
        (GroupByNone.filter (Tasks.read [h10, h11, h10b] [goodL]))) = [10, 11]
    ∧ ([(0, 0), (2, 0), (1, 0)] : List (Nat × Nat)) ≠ [(0, 0), (1, 0), (2, 0)] := by
  have h6 : Tasks.read [h10, h11, h10b] [goodL] = tasks6 := tasks6_def
  rw [h6, engineRun6]
  refine ⟨rfl, rfl, rfl, by decide⟩

/-- C6 (amended): the Evaluation Engine concatenates all task groups into a
single flat sequence and processes the concatenation as one group; its output
depends only on the flattened task sequence, so group boundaries are not
preserved (tasks from different groups are merged and re-sorted by source). -/
theorem c6_flatten_groups :
    (∀ (ignore_raise : Bool) (read : Nat → PySimulation) (pick : List ℚ → Nat)
      (G1 G2 : List (List BenchmarkTask)), G1.flatten = G2.flatten →
      Transactions.filter ignore_raise read pick G1 = Transactions.filter ignore_raise read pick G2)
    ∧ (∀ (ignore_raise : Bool) (read : Nat → PySimulation) (pick : List ℚ → Nat)
        (groups : List (List BenchmarkTask)),
        Transactions.filter ignore_raise read pick groups
          = Transactions.processGroup ignore_raise read pick groups.flatten) := by
  constructor
  · intro ir read pick G1 G2 h
    rw [Transactions.filter, Transactions.filter, h]
  · intro ir read pick groups
    rfl

/-- C6 amended witness: splitting the same two tasks into one or two groups
yields the identical engine output. -/
theorem c6_flatten_groups_witness :
    ([[taskA], [taskC]] : List (List BenchmarkTask)).flatten = [[taskA, taskC]].flatten
    ∧ Transactions.filter true read1 pick0 [[taskA], [taskC]]
        = Transactions.filter true read1 pick0 [[taskA, taskC]] :=
  ⟨rfl, c6_flatten_groups.1 true read1 pick0 [[taskA], [taskC]] [[taskA, taskC]] rfl⟩

/-- C7 (code bug): for one simulation with two learners collected in order
`[lrn 0, lrn 1]`, the engine attempts them in collection order `(0,0), (0,1)`,
not in reverse: the simulation-level `groupby` key `(sim_id, t.simulation)`
compares the per-task wrapper objects by identity, so every task forms its own
singleton group and the reverse-iteration of the learner loop never sees more
than one learner. -/
theorem c7_forward_attempt_order :
    Tasks.read [h5] [goodL, goodL] = tasks3
    ∧ attemptsOf (Transactions.filter true read1 pick0 [tasks3]) = [(0, 0), (0, 1)]
    ∧ attemptsOf (Transactions.filter true read1 pick0 [tasks3]) ≠ [(0, 1), (0, 0)] := by
  refine ⟨tasks3_def, ?_, ?_⟩
  · rw [engineRun3]; rfl
  · rw [engineRun3]
    intro h
    rw [show attemptsOf [EngEvent.loadSource 5, EngEvent.record 0 0 rec1, EngEvent.record 0 1 rec1]
      = [(0, 0), (0, 1)] from rfl] at h
    cases h

/-- Anything whose image under a fallible map raises makes the whole list
comprehension raise. -/
lemma mapExcept_error {α β : Type} (f : α → Except String β) :
    ∀ (l : List α) (b : α), b ∈ l → (∃ e, f b = .error e) →
      ∃ e2, mapExcept f l = .error e2 := by
  intro l
  induction l with
  | nil => intro b hb; cases hb
  | cons x xs ih =>
    intro b hb ⟨e, he⟩
    rcases List.mem_cons.mp hb with rfl | hmem
    · exact ⟨e, by rw [mapExcept, he]⟩
    · rcases hx : f x with e' | y
      · exact ⟨e', by rw [mapExcept, hx]⟩
      · obtain ⟨e2, he2⟩ := ih b hmem ⟨e, he⟩
        exact ⟨e2, by rw [mapExcept, hx, he2]; rfl⟩

/-- Every learner evaluated against a batch list containing an empty batch
raises: the context-size generator yields nothing for the empty batch and the
median of an empty sequence raises. -/
lemma evalLearner_empty_batch (pick : List ℚ → Nat) (L : PyLearner)
    (simu : PySimulation) (batches : List (List Interaction)) (hb : [] ∈ batches) :
    ∃ e, Transactions.evalLearner pick L simu batches = .error e := by
  by_cases hinit : L.initOk
  · have hctx : intMedian (Transactions.contextSizes []) = .error "no median for empty data" := rfl
    obtain ⟨e2, he2⟩ :=
      mapExcept_error (fun b => intMedian (Transactions.contextSizes b)) batches [] hb
        ⟨"no median for empty data", hctx⟩
    exact ⟨e2, by rw [Transactions.evalLearner, if_pos hinit, he2]⟩
  · exact ⟨"init raised", by rw [Transactions.evalLearner, if_neg hinit]⟩

/-- C10: A simulation whose (nonempty) batch sequence contains a zero
interaction batch makes every learner's evaluation raise — the context-size
generator, unlike the action-count generator, yields nothing on an empty
batch, so the median raises — and therefore no Result Record is emitted for
any learner of that simulation. -/
theorem c10_empty_batch :
    (∀ (pick : List ℚ → Nat) (L : PyLearner) (simu : PySimulation)
        (batches : List (List Interaction)), [] ∈ batches →
        ∃ e, Transactions.evalLearner pick L simu batches = .error e)
    ∧ Transactions.contextSizes [] = []
    ∧ Transactions.actionCounts [] = [0]
    ∧ batchify simEB = [[i0], []]
    ∧ Transactions.filter true readEB pick0 [tasksEB]
        = [.loadSource 6, .failure 0 0, .failure 0 1]
    ∧ recordsOf (Transactions.filter true readEB pick0 [tasksEB]) = [] := by
  refine ⟨evalLearner_empty_batch, rfl, rfl, rfl, engineRunEB, ?_⟩
  rw [engineRunEB]
  rfl

/-- C10 witness: the empty-batch failure instantiated on the concrete batched
simulation `simEB` and the well-behaved learner. -/
theorem c10_empty_batch_witness :
    ([] : List Interaction) ∈ [[i0], []]
    ∧ ∃ e, Transactions.evalLearner pick0 goodL simEB [[i0], []] = .error e :=
  ⟨by decide, c10_empty_batch.1 pick0 goodL simEB [[i0], []] (by decide)⟩

end Coba
